import Mathlib

/-!
Shallow embedding of the usage-collection and cost-aggregation pipeline of the
llm-usage-stats repository, together with proofs settling the frozen claims.

Conventions of the embedding:
* JavaScript numbers that carry money or token counts are modelled as `ℚ`
  (token counts as `ℕ` where the upstream contract guarantees integers);
  JavaScript `Date.now()` millisecond timestamps as `ℤ`.
* `x || d` fallbacks on possibly-absent JSON fields are modelled either by an
  `Option` type or by folding the "absent" case into the default value.
* The process-wide `Map` of the cache is modelled as a function
  `String → Option (CacheEntry α)` (JavaScript `Map` keys are unique).
* Asynchronous code is modelled by explicit state passing; network calls by
  function parameters supplying the upstream responses.
-/

namespace LlmStats

/-- One breakdown row of a cost result (src/lib/types.ts `ModelCost`). -/
structure ModelCost where
  model : String
  cost_usd : ℚ
  requests : ℕ
deriving Repr, DecidableEq

/-- The result of a provider's `getCosts` (src/lib/types.ts `CostData`). -/
structure CostData where
  total_cost_usd : ℚ
  last_updated : String
  breakdown : List ModelCost
deriving Repr, DecidableEq

/-! ## Result cache (src/utils/cache.ts, `src/unnamed/part_009`) -/

/-- A cache entry: stored data plus its creation timestamp (ms). -/
structure CacheEntry (α : Type) where
  data : α
  timestamp : ℤ
deriving Repr, DecidableEq

/-- Default TTL: 5 minutes in milliseconds (`DEFAULT_TTL`). -/
def DEFAULT_TTL : ℤ := 5 * 60 * 1000

/-- The in-memory store backing the cache `Map`. -/
def CacheStore (α : Type) : Type := String → Option (CacheEntry α)

/-- The empty store (a fresh `Map`). -/
def emptyCache {α : Type} : CacheStore α := fun _ => none

/-- JavaScript template interpolation of a possibly-undefined string value:
`undefined` stringifies to "undefined". -/
def interpOpt : Option String → String
  | none => "undefined"
  | some s => s

/-- Key serialization (`generateCacheKey`).  `workspace || 'none'` treats both
`undefined` and the empty string as absent; `projectId` is interpolated into a
template literal, so an absent project id becomes the text "undefined". -/
def generateCacheKey (provider : String) (workspace : Option String)
    (projectId : Option String) (startDate endDate : String) : String :=
  let workspaceKey :=
    match workspace with
    | none => "none"
    | some w => if w = "" then "none" else w
  let dateRange := startDate ++ "_" ++ endDate
  provider ++ "_" ++ workspaceKey ++ "_" ++ interpOpt projectId ++ "_" ++ dateRange

/-- `getFromCache`: returns the cached data if present and not expired, else
`none`; an expired entry is deleted as a side effect.  The returned store is
the store after the lazy eviction. -/
def getFromCache {α : Type} (store : CacheStore α) (now : ℤ) (key : String)
    (ttl : ℤ) : Option α × CacheStore α :=
  match store key with
  | none => (none, store)
  | some entry =>
    let age := now - entry.timestamp
    if age > ttl then (none, fun k => if k = key then none else store k)
    else (some entry.data, store)

/-- `setCache`: stores data under `key` with the current timestamp,
overwriting any prior entry. -/
def setCache {α : Type} (store : CacheStore α) (now : ℤ) (key : String)
    (data : α) : CacheStore α :=
  fun k => if k = key then some ⟨data, now⟩ else store k

/-- `invalidateCache`: explicit eviction of one key. -/
def invalidateCache {α : Type} (store : CacheStore α) (key : String) : CacheStore α :=
  fun k => if k = key then none else store k

/-! ## GET /api/costs route (`src/unnamed/part_011`) -/

/-- The query parameters of a cost request, after validation. -/
structure CostQuery where
  provider : String
  workspace : Option String
  projectId : Option String
  startDate : String
  endDate : String
deriving Repr, DecidableEq

/-- The cost path of the route handler `GET /api/costs`, after parameter
validation.  `providerGetCosts` stands for `providerInstance.getCosts`.  The
last component of the result counts how many times the provider's `getCosts`
was invoked while serving this request.

In the source, the cache lookup (`getFromCache` followed by an early return on
a hit) is commented out, marked "TEMPORARILY DISABLED: Cache to debug
calculation issues": the handler always fetches fresh data from the provider
and then stores it with `setCache`.  The embedding reflects the code as it
stands. -/
def costsRouteGET (providerGetCosts : CostQuery → CostData)
    (store : CacheStore CostData) (now : ℤ) (q : CostQuery) :
    CostData × CacheStore CostData × ℕ :=
  let cacheKey := generateCacheKey q.provider q.workspace q.projectId q.startDate q.endDate
  let costData := providerGetCosts q
  (costData, setCache store now cacheKey costData, 1)

/-! ## Time-window chunker (src/lib/providers/openai.ts, `getCosts` lines 181-192) -/

/-- Seconds per day (`SECONDS_PER_DAY`). -/
def SECONDS_PER_DAY : ℕ := 86400

/-- Maximum days per usage request (`MAX_DAYS_PER_REQUEST`); the source uses
30 to stay under the upstream limit of 31. -/
def MAX_DAYS_PER_REQUEST : ℕ := 30

/-- Maximum window length in seconds (`MAX_SECONDS_PER_REQUEST`). -/
def MAX_SECONDS_PER_REQUEST : ℕ := MAX_DAYS_PER_REQUEST * SECONDS_PER_DAY

/-- The chunking while-loop of `getCosts`: starting from `chunkStart`,
repeatedly emit `(chunkStart, min (chunkStart + maxSec) endTs)` and advance
the cursor to the window's end, until the cursor reaches `endTs`.  The source
runs it with `maxSec = MAX_SECONDS_PER_REQUEST`; the positivity guard on
`maxSec` is required for termination (the source's constant is positive). -/
def timeChunksFrom (chunkStart endTs maxSec : ℕ) : List (ℕ × ℕ) :=
  if h : chunkStart < endTs ∧ 0 < maxSec then
    let chunkEnd := min (chunkStart + maxSec) endTs
    (chunkStart, chunkEnd) :: timeChunksFrom chunkEnd endTs maxSec
  else []
termination_by endTs - chunkStart
decreasing_by
  have h1 : chunkStart < min (chunkStart + maxSec) endTs := by
    exact lt_min (by omega) h.1
  exact Nat.sub_lt_sub_left h.1 h1

/-- The chunk list as produced inside `getCosts` for a timestamp range. -/
def timeChunks (startTimestamp endTimestamp : ℕ) : List (ℕ × ℕ) :=
  timeChunksFrom startTimestamp endTimestamp MAX_SECONDS_PER_REQUEST

lemma timeChunksFrom_eq (s e m : ℕ) :
    timeChunksFrom s e m =
      if s < e ∧ 0 < m then (s, min (s + m) e) :: timeChunksFrom (min (s + m) e) e m
      else [] := by
  rw [timeChunksFrom]
  split <;> simp_all

lemma timeChunksFrom_head_fst (s e m : ℕ) :
    ∀ w ∈ (timeChunksFrom s e m).head?, w.1 = s := by
  rw [timeChunksFrom_eq]
  split <;> simp

lemma timeChunksFrom_chain (s e m : ℕ) :
    List.Chain' (fun a b : ℕ × ℕ => a.2 = b.1) (timeChunksFrom s e m) := by
  induction s, e, m using timeChunksFrom.induct with
  | case1 s e m h chunkEnd ih =>
    rw [timeChunksFrom_eq, if_pos h]
    refine List.chain'_cons'.mpr ⟨?_, ih⟩
    intro b hb
    exact (timeChunksFrom_head_fst _ _ _ b hb).symm
  | case2 s e m h =>
    rw [timeChunksFrom_eq, if_neg h]
    exact List.chain'_nil

lemma timeChunksFrom_mem_bounds (s e m : ℕ) :
    ∀ w ∈ timeChunksFrom s e m, w.1 < w.2 ∧ w.2 - w.1 ≤ m := by
  induction s, e, m using timeChunksFrom.induct with
  | case1 s e m h chunkEnd ih =>
    rw [timeChunksFrom_eq, if_pos h]
    intro w hw
    rcases List.mem_cons.mp hw with hw | hw
    · subst hw
      constructor
      · exact lt_min (by omega) h.1
      · simp only [min_def]
        split <;> omega
    · exact ih w hw
  | case2 s e m h =>
    rw [timeChunksFrom_eq, if_neg h]
    intro w hw
    simp at hw

lemma timeChunksFrom_mem_le (s e m : ℕ) :
    ∀ w ∈ timeChunksFrom s e m, s ≤ w.1 := by
  induction s, e, m using timeChunksFrom.induct with
  | case1 s e m h chunkEnd ih =>
    rw [timeChunksFrom_eq, if_pos h]
    intro w hw
    rcases List.mem_cons.mp hw with hw | hw
    · subst hw; exact le_refl _
    · have := ih w hw
      have hs : s ≤ min (s + m) e := le_min (by omega) (le_of_lt h.1)
      exact le_trans hs this
  | case2 s e m h =>
    rw [timeChunksFrom_eq, if_neg h]
    intro w hw
    simp at hw

lemma timeChunksFrom_pairwise (s e m : ℕ) :
    List.Pairwise (fun a b : ℕ × ℕ => a.2 ≤ b.1) (timeChunksFrom s e m) := by
  induction s, e, m using timeChunksFrom.induct with
  | case1 s e m h chunkEnd ih =>
    rw [timeChunksFrom_eq, if_pos h]
    refine List.pairwise_cons.mpr ⟨?_, ih⟩
    intro w hw
    exact timeChunksFrom_mem_le _ _ _ w hw
  | case2 s e m h =>
    rw [timeChunksFrom_eq, if_neg h]
    exact List.Pairwise.nil

lemma timeChunksFrom_last_snd (s e m : ℕ) (hse : s < e) (hm : 0 < m) :
    ((timeChunksFrom s e m).getLast?).map Prod.snd = some e := by
  induction s, e, m using timeChunksFrom.induct with
  | case1 s e m h chunkEnd ih =>
    rw [timeChunksFrom_eq, if_pos h]
    by_cases hc : min (s + m) e < e
    · have ih2 := ih hc h.2
      cases htl : (timeChunksFrom ((s + m) ⊓ e) e m).getLast? with
      | none =>
        rw [htl] at ih2
        simp at ih2
      | some w =>
        rw [htl] at ih2
        rw [List.getLast?_cons, htl]
        simpa using ih2
    · have he : min (s + m) e = e := by omega
      have hnil : timeChunksFrom (min (s + m) e) e m = [] := by
        rw [timeChunksFrom_eq, if_neg]
        omega
      rw [hnil]
      simp [he]
  | case2 s e m h =>
    exact absurd ⟨hse, hm⟩ h

lemma timeChunksFrom_length (s e m : ℕ) (hse : s < e) (hm : 0 < m) :
    (timeChunksFrom s e m).length = (e - s + m - 1) / m := by
  induction s, e, m using timeChunksFrom.induct with
  | case1 s e m h chunkEnd ih =>
    rw [timeChunksFrom_eq, if_pos h]
    by_cases hc : min (s + m) e < e
    · have ih2 : (timeChunksFrom (min (s + m) e) e m).length
          = (e - min (s + m) e + m - 1) / m := ih hc h.2
      have hmin : min (s + m) e = s + m := by omega
      rw [List.length_cons, ih2, hmin]
      have h1 : e - s + m - 1 = (e - (s + m) + m - 1) + m := by omega
      rw [h1, Nat.add_div_right _ h.2]
    · have hnil : timeChunksFrom (min (s + m) e) e m = [] := by
        rw [timeChunksFrom_eq, if_neg]
        omega
      rw [hnil]
      have hone : (e - s + m - 1) / m = 1 := Nat.div_eq_of_lt_le (by omega) (by omega)
      simp [hone]
  | case2 s e m h =>
    exact absurd ⟨hse, hm⟩ h

lemma timeChunksFrom_single (s e m : ℕ) (hse : s < e) (hm : 0 < m) (hfit : e - s ≤ m) :
    timeChunksFrom s e m = [(s, e)] := by
  rw [timeChunksFrom_eq, if_pos ⟨hse, hm⟩]
  have hmin : min (s + m) e = e := by omega
  rw [hmin, timeChunksFrom_eq, if_neg (by omega)]

/-- C3: for all (start, end, maxWindowSeconds) with end > start and a positive
window bound, the windows produced by the chunking loop start at `start`, are
contiguous (each window's end is the next window's start), pairwise
non-overlapping and ordered, of positive length at most the bound, end exactly
at `end`, and number `ceil((end - start) / bound)` (written with natural
ceiling division); a range that already fits yields exactly one window. -/
theorem chunker_windows_correct (s e m : ℕ) (hse : s < e) (hm : 0 < m) :
    ((timeChunksFrom s e m).head?).map Prod.fst = some s
    ∧ List.Chain' (fun a b : ℕ × ℕ => a.2 = b.1) (timeChunksFrom s e m)
    ∧ List.Pairwise (fun a b : ℕ × ℕ => a.2 ≤ b.1) (timeChunksFrom s e m)
    ∧ (∀ w ∈ timeChunksFrom s e m, w.1 < w.2 ∧ w.2 - w.1 ≤ m)
    ∧ ((timeChunksFrom s e m).getLast?).map Prod.snd = some e
    ∧ (timeChunksFrom s e m).length = (e - s + m - 1) / m
    ∧ (e - s ≤ m → timeChunksFrom s e m = [(s, e)]) := by
  refine ⟨?_, timeChunksFrom_chain s e m, timeChunksFrom_pairwise s e m,
    timeChunksFrom_mem_bounds s e m, timeChunksFrom_last_snd s e m hse hm,
    timeChunksFrom_length s e m hse hm, timeChunksFrom_single s e m hse hm⟩
  rw [timeChunksFrom_eq, if_pos ⟨hse, hm⟩]
  rfl

/-- Witness for C3 at the concrete range (10, 100) with bound 30: the
hypotheses hold and the chunker yields ceil(90 / 30) = 3 windows. -/
theorem chunker_windows_correct_witness :
    (10 : ℕ) < 100 ∧ (0 : ℕ) < 30
    ∧ (timeChunksFrom 10 100 30).length = (100 - 10 + 30 - 1) / 30 :=
  ⟨by decide, by decide,
    (chunker_windows_correct 10 100 30 (by decide) (by decide)).2.2.2.2.2.1⟩

/-! ## Paginated fetch loop with retry (src/lib/providers/openai.ts,
`fetchAllPagesForChunk`, lines 197-267) -/

/-- The outcome of an upstream request or of a whole fetch: a value, or a
thrown error carried as its message text (the source classifies errors by
substring-matching the message). -/
inductive FetchOutcome (α : Type) where
  | ok (val : α)
  | err (msg : String)
deriving Repr, DecidableEq

/-- One page of upstream results: the `data` array, the `has_more` flag and
the `next_page` continuation token. -/
structure UsagePage (α : Type) where
  data : List α
  hasMore : Bool
  nextPage : Option String
deriving Repr, DecidableEq

/-- JavaScript `String.prototype.includes`: substring containment. -/
def strIncludes (s pat : String) : Bool :=
  decide (pat.toList <:+: s.toList)

/-- Base backoff delay in milliseconds: the source sleeps `attempt * 2000` ms
(logged as `attempt * 2`s). -/
def BASE_RETRY_DELAY_MS : ℕ := 2000

/-- Maximum attempts per upstream request (the source's literal 3). -/
def MAX_ATTEMPTS : ℕ := 3

/-- Safety ceiling on pages per chunk (`MAX_PAGES_PER_CHUNK`). -/
def MAX_PAGES_PER_CHUNK : ℕ := 50

/-- The attempt loop wrapped around one upstream page request
(`for (let attempt = 1; attempt <= 3; attempt++)`).  `req attempt` is the
outcome of the upstream call on that attempt.  A message containing "404" or
"403" is rethrown immediately as a descriptive permanent error; a message
containing "503" or "timeout" is retried after a backoff of
`attempt * BASE_RETRY_DELAY_MS` while `attempt < 3`; any other error is
rethrown.  The second component accumulates the backoff delays slept. -/
def retryFetch {α : Type} (req : ℕ → FetchOutcome (UsagePage α)) (attempt : ℕ)
    (delays : List ℕ) : FetchOutcome (UsagePage α) × List ℕ :=
  match req attempt with
  | .ok page => (.ok page, delays)
  | .err msg =>
    if strIncludes msg "404" then
      (.err "OpenAI usage endpoint not found.", delays)
    else if strIncludes msg "403" then
      (.err "OpenAI API permission denied. Check API key scopes.", delays)
    else if h : attempt < MAX_ATTEMPTS ∧ (strIncludes msg "503" || strIncludes msg "timeout") = true then
      retryFetch req (attempt + 1) (delays ++ [attempt * BASE_RETRY_DELAY_MS])
    else (.err msg, delays)
termination_by MAX_ATTEMPTS - attempt
decreasing_by
  have := h.1
  omega

/-- The do-while pagination loop of `fetchAllPagesForChunk`.  `upstream k a`
is the outcome of attempt `a` of the request for the `k`-th page (0-based;
the source keys the request on the continuation token of the previous
response, which for the mock upstreams used here is determined by `k`).
Pages accumulate into `acc`; the loop continues while the response yields a
continuation token and fewer than `MAX_PAGES_PER_CHUNK` pages were fetched.
On success it returns the flattened entries and the number of page requests
that succeeded. -/
def fetchPagesLoop {α : Type} (upstream : ℕ → ℕ → FetchOutcome (UsagePage α))
    (pageCount : ℕ) (acc : List α) (delays : List ℕ) :
    FetchOutcome (List α × ℕ) × List ℕ :=
  match retryFetch (upstream pageCount) 1 delays with
  | (.err msg, ds) => (.err msg, ds)
  | (.ok page, ds) =>
    let acc2 := acc ++ page.data
    let nextPage := if page.hasMore then page.nextPage else none
    let pc := pageCount + 1
    if h : nextPage.isSome = true ∧ pc < MAX_PAGES_PER_CHUNK then
      fetchPagesLoop upstream pc acc2 ds
    else (.ok (acc2, pc), ds)
termination_by MAX_PAGES_PER_CHUNK - pageCount
decreasing_by
  have := h.2
  simp only [MAX_PAGES_PER_CHUNK] at *
  omega

/-- `fetchAllPagesForChunk`: drain all pages of one time chunk. -/
def fetchAllPagesForChunk {α : Type} (upstream : ℕ → ℕ → FetchOutcome (UsagePage α)) :
    FetchOutcome (List α × ℕ) × List ℕ :=
  fetchPagesLoop upstream 0 [] []

/-- A mock upstream that always succeeds, serving page `k` of `pages` on the
`k`-th request, reporting "more pages" on every response except the last one
and carrying a continuation token. -/
def mockUpstream {α : Type} (pages : List (List α)) :
    ℕ → ℕ → FetchOutcome (UsagePage α) :=
  fun k _attempt => .ok ⟨pages.getD k [], decide (k + 1 < pages.length), some "next-token"⟩

lemma retryFetch_of_ok {α : Type} (req : ℕ → FetchOutcome (UsagePage α)) (a : ℕ)
    (ds : List ℕ) (p : UsagePage α) (h : req a = .ok p) :
    retryFetch req a ds = (.ok p, ds) := by
  rw [retryFetch.eq_def, h]

lemma fetchPagesLoop_mock {α : Type} (pages : List (List α)) (hle : pages.length ≤ 50) :
    ∀ (n pc : ℕ) (acc : List α) (ds : List ℕ), pages.length - pc = n + 1 →
      fetchPagesLoop (mockUpstream pages) pc acc ds
        = (.ok (acc ++ (pages.drop pc).flatten, pages.length), ds) := by
  intro n
  induction n with
  | zero =>
    intro pc acc ds hn
    have hpc : pc + 1 = pages.length := by omega
    have hlt : pc < pages.length := by omega
    rw [fetchPagesLoop.eq_def,
      retryFetch_of_ok (mockUpstream pages pc) 1 ds _ rfl]
    simp only [mockUpstream, MAX_PAGES_PER_CHUNK]
    have hmore : decide (pc + 1 < pages.length) = false := by
      simp
      omega
    rw [hmore]
    simp only [Bool.false_eq_true, if_false, Option.isSome_none, Bool.false_eq_true,
      false_and, dite_false]
    rw [List.drop_eq_getElem_cons hlt, List.getD_eq_getElem?_getD,
      List.getElem?_eq_getElem hlt]
    have hdrop : pages.drop (pc + 1) = [] := by
      rw [List.drop_eq_nil_iff]
      omega
    simp [hdrop, hpc]
  | succ k ih =>
    intro pc acc ds hn
    have hlt : pc < pages.length := by omega
    have hmlt : pc + 1 < pages.length := by omega
    rw [fetchPagesLoop.eq_def,
      retryFetch_of_ok (mockUpstream pages pc) 1 ds _ rfl]
    simp only [mockUpstream, MAX_PAGES_PER_CHUNK]
    have hmore : decide (pc + 1 < pages.length) = true := by
      simp
      omega
    rw [hmore]
    simp only [if_true, Option.isSome_some, true_and]
    rw [dif_pos (by omega)]
    rw [ih (pc + 1) (acc ++ pages.getD pc []) ds (by omega)]
    simp only [List.getD_eq_getElem?_getD, List.getElem?_eq_getElem hlt,
      Option.getD_some, List.append_assoc]
    rw [List.drop_eq_getElem_cons hlt]
    simp only [List.flatten_cons, List.append_assoc]

/-- C4 (amended): for every N with 1 ≤ N ≤ MAX_PAGES_PER_CHUNK, against a
mock upstream that reports "more pages" on the first N-1 responses and "no
more" on the Nth, the per-window fetch loop issues exactly N page requests
and returns the entries of all N pages flattened in order (with no backoff
delays). -/
theorem fetch_loop_pagination (pages : List (List ℕ)) (h1 : 1 ≤ pages.length)
    (h50 : pages.length ≤ 50) :
    fetchAllPagesForChunk (mockUpstream pages)
      = (.ok (pages.flatten, pages.length), []) := by
  unfold fetchAllPagesForChunk
  rw [fetchPagesLoop_mock pages h50 (pages.length - 1) 0 [] [] (by omega)]
  simp

/-- Witness for C4 at N = 3 concrete pages. -/
theorem fetch_loop_pagination_witness :
    1 ≤ ([[1, 2], [3], [4, 5, 6]] : List (List ℕ)).length
    ∧ ([[1, 2], [3], [4, 5, 6]] : List (List ℕ)).length ≤ 50
    ∧ fetchAllPagesForChunk (mockUpstream [[1, 2], [3], [4, 5, 6]])
        = (.ok ([1, 2, 3, 4, 5, 6], 3), []) :=
  ⟨by decide, by decide,
    fetch_loop_pagination [[1, 2], [3], [4, 5, 6]] (by decide) (by decide)⟩

lemma fetchPagesLoop_mock_ceiling {α : Type} (pages : List (List α))
    (hgt : 50 < pages.length) :
    ∀ (n pc : ℕ) (acc : List α) (ds : List ℕ), 50 - pc = n + 1 →
      fetchPagesLoop (mockUpstream pages) pc acc ds
        = (.ok (acc ++ ((pages.take 50).drop pc).flatten, 50), ds) := by
  intro n
  induction n with
  | zero =>
    intro pc acc ds hn
    have hpc : pc + 1 = 50 := by omega
    have hlt : pc < pages.length := by omega
    rw [fetchPagesLoop.eq_def,
      retryFetch_of_ok (mockUpstream pages pc) 1 ds _ rfl]
    simp only [mockUpstream, MAX_PAGES_PER_CHUNK]
    have hmore : decide (pc + 1 < pages.length) = true := by
      simp
      omega
    rw [hmore]
    simp only [if_true, Option.isSome_some, true_and]
    rw [dif_neg (by omega)]
    have hlt' : pc < (pages.take 50).length := by
      simp
      omega
    rw [List.drop_eq_getElem_cons hlt', List.getD_eq_getElem?_getD,
      List.getElem?_eq_getElem hlt]
    have hdrop : (pages.take 50).drop (pc + 1) = [] := by
      rw [List.drop_eq_nil_iff]
      simp
      omega
    rw [hdrop]
    simp only [List.flatten_cons, List.flatten_nil, List.append_nil, hpc]
    rw [List.getElem_take]
    simp
  | succ k ih =>
    intro pc acc ds hn
    have hlt : pc < pages.length := by omega
    rw [fetchPagesLoop.eq_def,
      retryFetch_of_ok (mockUpstream pages pc) 1 ds _ rfl]
    simp only [mockUpstream, MAX_PAGES_PER_CHUNK]
    have hmore : decide (pc + 1 < pages.length) = true := by
      simp
      omega
    rw [hmore]
    simp only [if_true, Option.isSome_some, true_and]
    rw [dif_pos (by omega)]
    rw [ih (pc + 1) (acc ++ pages.getD pc []) ds (by omega)]
    have hlt' : pc < (pages.take 50).length := by
      simp
      omega
    rw [List.drop_eq_getElem_cons hlt', List.getD_eq_getElem?_getD,
      List.getElem?_eq_getElem hlt]
    simp only [List.flatten_cons, List.append_assoc]
    rw [List.getElem_take]
    simp

/-- Counterexample to C4 as frozen: with N = 51 pages the loop stops at the
hard ceiling of 50, issuing 50 requests (not 51) and dropping the last page's
entries. -/
theorem fetch_loop_pagination_counterexample :
    fetchAllPagesForChunk (mockUpstream (List.replicate 51 [(0 : ℕ)]))
        = (.ok (List.replicate 50 0, 50), [])
    ∧ (50 : ℕ) ≠ 51 := by
  constructor
  · unfold fetchAllPagesForChunk
    rw [fetchPagesLoop_mock_ceiling (List.replicate 51 [(0 : ℕ)]) (by decide)
      49 0 [] [] (by decide)]
    have h1 : ((List.replicate 51 [(0 : ℕ)]).take 50).drop 0 = List.replicate 50 [0] := by
      decide
    rw [h1]
    have h2 : (List.replicate 50 [(0 : ℕ)]).flatten = List.replicate 50 0 := by
      decide
    rw [h2]
    simp
  · decide

/-- A transient error message per the source's classification: it matches
neither "404" nor "403" and contains "503" or "timeout". -/
def transientMsg (m : String) : Prop :=
  strIncludes m "404" = false ∧ strIncludes m "403" = false
    ∧ (strIncludes m "503" || strIncludes m "timeout") = true

instance (m : String) : Decidable (transientMsg m) := by
  unfold transientMsg
  infer_instance

lemma retryFetch_of_transient {α : Type} (req : ℕ → FetchOutcome (UsagePage α))
    (a : ℕ) (ds : List ℕ) (m : String) (ha : a < MAX_ATTEMPTS) (hm : transientMsg m)
    (h : req a = .err m) :
    retryFetch req a ds = retryFetch req (a + 1) (ds ++ [a * BASE_RETRY_DELAY_MS]) := by
  rw [retryFetch.eq_def, h]
  simp only [hm.1, hm.2.1, Bool.false_eq_true, if_false]
  rw [dif_pos ⟨ha, hm.2.2⟩]

lemma retryFetch_of_404 {α : Type} (req : ℕ → FetchOutcome (UsagePage α))
    (a : ℕ) (ds : List ℕ) (m : String) (h404 : strIncludes m "404" = true)
    (h : req a = .err m) :
    retryFetch req a ds = (.err "OpenAI usage endpoint not found.", ds) := by
  rw [retryFetch.eq_def, h]
  simp [h404]

lemma retryFetch_of_403 {α : Type} (req : ℕ → FetchOutcome (UsagePage α))
    (a : ℕ) (ds : List ℕ) (m : String) (h404 : strIncludes m "404" = false)
    (h403 : strIncludes m "403" = true) (h : req a = .err m) :
    retryFetch req a ds = (.err "OpenAI API permission denied. Check API key scopes.", ds) := by
  rw [retryFetch.eq_def, h]
  simp [h404, h403]

lemma retryFetch_of_exhausted {α : Type} (req : ℕ → FetchOutcome (UsagePage α))
    (a : ℕ) (ds : List ℕ) (m : String) (ha : ¬a < MAX_ATTEMPTS) (hm : transientMsg m)
    (h : req a = .err m) :
    retryFetch req a ds = (.err m, ds) := by
  rw [retryFetch.eq_def, h]
  simp only [hm.1, hm.2.1, Bool.false_eq_true, if_false]
  rw [dif_neg]
  intro hc
  exact ha hc.1

/-- C5: behaviour of the retry policy wrapped around each upstream request.
(1) Two transient failures followed by a success complete the query with the
correct result after exactly two backoff delays of `attempt * base`.
(2)/(3) A permanent failure (message matching "404" or "403") at any attempt
is not retried: the attempt loop aborts at once with a descriptive error and
no additional backoff delay.  (4) A permanent failure on the first attempt
aborts the whole per-chunk fetch with the descriptive error and zero backoff
delays.  (5) Three transient failures exhaust the attempts and abort the
whole fetch. -/
theorem retry_policy_behaviour :
    (∀ (upstream : ℕ → ℕ → FetchOutcome (UsagePage ℕ)) (m1 m2 : String) (p : UsagePage ℕ),
      transientMsg m1 → transientMsg m2 →
      upstream 0 1 = .err m1 → upstream 0 2 = .err m2 → upstream 0 3 = .ok p →
      p.hasMore = false →
      fetchAllPagesForChunk upstream
        = (.ok (p.data, 1), [1 * BASE_RETRY_DELAY_MS, 2 * BASE_RETRY_DELAY_MS]))
    ∧ (∀ (α : Type) (req : ℕ → FetchOutcome (UsagePage α)) (a : ℕ) (ds : List ℕ) (m : String),
      strIncludes m "404" = true → req a = .err m →
      retryFetch req a ds = (.err "OpenAI usage endpoint not found.", ds))
    ∧ (∀ (α : Type) (req : ℕ → FetchOutcome (UsagePage α)) (a : ℕ) (ds : List ℕ) (m : String),
      strIncludes m "404" = false → strIncludes m "403" = true → req a = .err m →
      retryFetch req a ds = (.err "OpenAI API permission denied. Check API key scopes.", ds))
    ∧ (∀ (upstream : ℕ → ℕ → FetchOutcome (UsagePage ℕ)) (m : String),
      strIncludes m "404" = true → upstream 0 1 = .err m →
      fetchAllPagesForChunk upstream = (.err "OpenAI usage endpoint not found.", []))
    ∧ (∀ (upstream : ℕ → ℕ → FetchOutcome (UsagePage ℕ)) (m1 m2 m3 : String),
      transientMsg m1 → transientMsg m2 → transientMsg m3 →
      upstream 0 1 = .err m1 → upstream 0 2 = .err m2 → upstream 0 3 = .err m3 →
      fetchAllPagesForChunk upstream
        = (.err m3, [1 * BASE_RETRY_DELAY_MS, 2 * BASE_RETRY_DELAY_MS])) := by
  refine ⟨?_, ?_, ?_, ?_, ?_⟩
  · intro upstream m1 m2 p hm1 hm2 h1 h2 h3 hmore
    unfold fetchAllPagesForChunk
    rw [fetchPagesLoop.eq_def,
      retryFetch_of_transient _ 1 [] m1 (by decide) hm1 h1,
      retryFetch_of_transient _ 2 _ m2 (by decide) hm2 h2,
      retryFetch_of_ok _ 3 _ p h3]
    simp [hmore]
  · intro α req a ds m h404 h
    exact retryFetch_of_404 req a ds m h404 h
  · intro α req a ds m h404 h403 h
    exact retryFetch_of_403 req a ds m h404 h403 h
  · intro upstream m h404 h
    unfold fetchAllPagesForChunk
    rw [fetchPagesLoop.eq_def, retryFetch_of_404 _ 1 [] m h404 h]
  · intro upstream m1 m2 m3 hm1 hm2 hm3 h1 h2 h3
    unfold fetchAllPagesForChunk
    rw [fetchPagesLoop.eq_def,
      retryFetch_of_transient _ 1 [] m1 (by decide) hm1 h1,
      retryFetch_of_transient _ 2 _ m2 (by decide) hm2 h2,
      retryFetch_of_exhausted _ 3 _ m3 (by decide) hm3 h3]
    simp

/-- Witness for C5 on concrete upstreams: a 503/timeout/success sequence
completes with the page data after backoffs of 2000 ms and 4000 ms; a 404 on
the first attempt aborts at once with no delays; three transient failures
abort with both delays. -/
theorem retry_policy_behaviour_witness :
    transientMsg "503 Service Unavailable"
    ∧ fetchAllPagesForChunk (fun _ a =>
        if a = 1 then .err "503 Service Unavailable"
        else if a = 2 then .err "upstream timeout"
        else .ok (⟨[9], false, none⟩ : UsagePage ℕ))
      = (.ok ([9], 1), [2000, 4000])
    ∧ fetchAllPagesForChunk (fun _ _ => (.err "OpenAI API error (404): nope" : FetchOutcome (UsagePage ℕ)))
      = (.err "OpenAI usage endpoint not found.", [])
    ∧ fetchAllPagesForChunk (fun _ a =>
        if a = 1 then .err "503 Service Unavailable"
        else if a = 2 then .err "upstream timeout"
        else (.err "503 again" : FetchOutcome (UsagePage ℕ)))
      = (.err "503 again", [2000, 4000]) :=
  ⟨by decide,
    retry_policy_behaviour.1 _ "503 Service Unavailable" "upstream timeout" ⟨[9], false, none⟩
      (by decide) (by decide) rfl rfl rfl rfl,
    retry_policy_behaviour.2.2.2.1 _ "OpenAI API error (404): nope" (by decide) rfl,
    retry_policy_behaviour.2.2.2.2 _ "503 Service Unavailable" "upstream timeout" "503 again"
      (by decide) (by decide) (by decide) rfl rfl rfl⟩

/-! ## Usage aggregation (openai.ts lines 331-404, anthropic.ts lines 311-347) -/

/-- A per-model running accumulator (the values of the `modelMap`). -/
structure ModelAcc where
  inputTokens : ℕ
  outputTokens : ℕ
  requests : ℕ
deriving Repr, DecidableEq

/-- The `modelMap` update: a JavaScript `Map` keeps insertion order, updates
an existing key in place and appends a new key at the end. -/
def bumpModel (map : List (String × ModelAcc)) (model : String) (d : ModelAcc) :
    List (String × ModelAcc) :=
  match map with
  | [] => [(model, d)]
  | (k, a) :: rest =>
    if k = model then
      (k, ⟨a.inputTokens + d.inputTokens, a.outputTokens + d.outputTokens,
        a.requests + d.requests⟩) :: rest
    else (k, a) :: bumpModel rest model d

/-- The state of the parsing loop: the model map plus the running totals. -/
structure ParseTotals where
  modelMap : List (String × ModelAcc)
  totalInputTokens : ℕ
  totalOutputTokens : ℕ
  totalRequests : ℕ
deriving Repr, DecidableEq

/-- `result.model || 'unknown'`: both an absent and an empty model identifier
fall back to the "unknown" bucket. -/
def effModelName : Option String → String
  | none => "unknown"
  | some s => if s = "" then "unknown" else s

/-- One usage entry of an upstream response (`result.input_tokens || 0`
etc.; absent counts behave as 0 and are folded into the `ℕ` fields). -/
structure UsageResult where
  model : Option String
  input_tokens : ℕ
  output_tokens : ℕ
  num_model_requests : ℕ
deriving Repr, DecidableEq

/-- Processing one usage result: update the model map and the totals. -/
def addResult (st : ParseTotals) (r : UsageResult) : ParseTotals :=
  { modelMap := bumpModel st.modelMap (effModelName r.model)
      ⟨r.input_tokens, r.output_tokens, r.num_model_requests⟩
    totalInputTokens := st.totalInputTokens + r.input_tokens
    totalOutputTokens := st.totalOutputTokens + r.output_tokens
    totalRequests := st.totalRequests + r.num_model_requests }

/-- The three raw bucket shapes the OpenAI parsing loop recognizes: a wrapper
with a `results` array, a bucket that is itself one result (it has an
`input_tokens` or `output_tokens` field), and anything else (counted as an
empty bucket and skipped). -/
inductive OpenAIBucket where
  | withResults (results : List UsageResult)
  | direct (r : UsageResult)
  | other
deriving Repr, DecidableEq

/-- Processing one bucket of the OpenAI usage response. -/
def parseBucket (st : ParseTotals) : OpenAIBucket → ParseTotals
  | .withResults rs => rs.foldl addResult st
  | .direct r => addResult st r
  | .other => st

/-- The OpenAI parsing loop over all collected buckets. -/
def parseBuckets (buckets : List OpenAIBucket) : ParseTotals :=
  buckets.foldl parseBucket ⟨[], 0, 0, 0⟩

/-! ## Pricing resolution (openai.ts lines 303-329 and 407-416,
anthropic.ts lines 237-261 and 350-358) -/

/-- `MODEL_PRICING['default']` for OpenAI, per 1M tokens. -/
def openaiDefaultPricing : ℚ × ℚ := (2.50, 10.00)

/-- The OpenAI static pricing table (`MODEL_PRICING`), in source order;
`Object.keys` preserves this insertion order. -/
def openaiModelPricing : List (String × ℚ × ℚ) :=
  [("gpt-4o", (2.50, 10.00)),
   ("gpt-4o-2024-11-20", (2.50, 10.00)),
   ("gpt-4o-2024-08-06", (2.50, 10.00)),
   ("gpt-4o-2024-05-13", (5.00, 15.00)),
   ("gpt-4o-mini", (0.15, 0.60)),
   ("gpt-4o-mini-2024-07-18", (0.15, 0.60)),
   ("gpt-4-turbo", (10.00, 30.00)),
   ("gpt-4-turbo-preview", (10.00, 30.00)),
   ("gpt-4-1106-preview", (10.00, 30.00)),
   ("gpt-4", (30.00, 60.00)),
   ("gpt-4-0613", (30.00, 60.00)),
   ("gpt-3.5-turbo", (0.50, 1.50)),
   ("gpt-3.5-turbo-0125", (0.50, 1.50)),
   ("gpt-3.5-turbo-1106", (1.00, 2.00)),
   ("text-embedding-3-small", (0.02, 0)),
   ("text-embedding-3-large", (0.13, 0)),
   ("text-embedding-ada-002", (0.10, 0)),
   ("default", openaiDefaultPricing)]

/-- `MODEL_PRICING['default']` for Anthropic (Claude 3.5 Sonnet pricing). -/
def anthropicDefaultPricing : ℚ × ℚ := (3.00, 15.00)

/-- The Anthropic static pricing table, in source order. -/
def anthropicModelPricing : List (String × ℚ × ℚ) :=
  [("claude-3-5-sonnet-20241022", (3.00, 15.00)),
   ("claude-3-5-sonnet-20240620", (3.00, 15.00)),
   ("claude-3-5-sonnet", (3.00, 15.00)),
   ("claude-3-5-haiku-20241022", (0.80, 4.00)),
   ("claude-3-5-haiku", (0.80, 4.00)),
   ("claude-3-opus-20240229", (15.00, 75.00)),
   ("claude-3-opus", (15.00, 75.00)),
   ("claude-3-sonnet-20240229", (3.00, 15.00)),
   ("claude-3-sonnet", (3.00, 15.00)),
   ("claude-3-haiku-20240307", (0.25, 1.25)),
   ("claude-3-haiku", (0.25, 1.25)),
   ("claude-2.1", (8.00, 24.00)),
   ("claude-2.0", (8.00, 24.00)),
   ("claude-instant-1.2", (0.80, 2.40)),
   ("default", anthropicDefaultPricing)]

/-- Exact lookup `MODEL_PRICING[model]` in a table. -/
def priceLookup (table : List (String × ℚ × ℚ)) (m : String) : Option (ℚ × ℚ) :=
  (table.find? (fun kv => kv.1 == m)).map (fun kv => kv.2)

/-- JavaScript `s.startsWith(pre)`, modelled on the character sequences. -/
def jsStartsWith (s pre : String) : Bool :=
  pre.toList.isPrefixOf s.toList

/-- JavaScript `String.prototype.split` with a single-character separator,
modelled on the character sequence (`"".split(sep)` is `[""]`, and empty
segments between adjacent separators are kept, as in JavaScript). -/
def splitOnChar (sep : Char) : List Char → List (List Char)
  | [] => [[]]
  | c :: rest =>
    let r := splitOnChar sep rest
    if c = sep then [] :: r
    else
      match r with
      | [] => [[c]]
      | h :: t => (c :: h) :: t

/-- `model.split('-').slice(0, n).join('-')`: the normalized identifier
stem used by the heuristic match (n = 2 for OpenAI, n = 3 for Anthropic). -/
def modelKeyStem (model : String) (n : ℕ) : List Char :=
  List.intercalate ['-'] ((splitOnChar '-' model.toList).take n)

/-- `Object.keys(MODEL_PRICING).find(...)`: the first table entry whose key
is a prefix of the identifier, or whose key extends the identifier's stem. -/
def findStemKey (table : List (String × ℚ × ℚ)) (model : String) (n : ℕ) :
    Option (String × ℚ × ℚ) :=
  table.find? (fun kv =>
    jsStartsWith model kv.1 || (modelKeyStem model n).isPrefixOf kv.1.toList)

/-- OpenAI pricing resolution: exact match, then the heuristic match with a
2-segment stem, then the provider default. -/
def openaiFindPricing (model : String) : ℚ × ℚ :=
  match priceLookup openaiModelPricing model with
  | some p => p
  | none =>
    match findStemKey openaiModelPricing model 2 with
    | some kv => kv.2
    | none => openaiDefaultPricing

/-- Anthropic pricing resolution: exact match, then the heuristic match with
a 3-segment stem, then the provider default. -/
def anthropicFindPricing (model : String) : ℚ × ℚ :=
  match priceLookup anthropicModelPricing model with
  | some p => p
  | none =>
    match findStemKey anthropicModelPricing model 3 with
    | some kv => kv.2
    | none => anthropicDefaultPricing

/-! ## Cost computation and breakdown assembly -/

/-- Display name for a model row (`model === 'unknown'` is prettified). -/
def displayModelName (model : String) : String :=
  if model = "unknown" then "Unknown Model" else model

/-- One iteration of the cost loop: resolve the pricing for the model,
compute `(inputTokens / 1e6) * in + (outputTokens / 1e6) * out`, push a
breakdown row, and add the model cost to the running total. -/
def costStep (price : String → ℚ × ℚ) (acc : List ModelCost × ℚ)
    (me : String × ModelAcc) : List ModelCost × ℚ :=
  let pricing := price me.1
  let inputCost := ((me.2.inputTokens : ℚ) / 1000000) * pricing.1
  let outputCost := ((me.2.outputTokens : ℚ) / 1000000) * pricing.2
  let modelCost := inputCost + outputCost
  (acc.1 ++ [⟨displayModelName me.1, modelCost, me.2.requests⟩], acc.2 + modelCost)

/-- The cost loop over the accumulated model map. -/
def costRows (price : String → ℚ × ℚ) (map : List (String × ModelAcc)) :
    List ModelCost × ℚ :=
  map.foldl (costStep price) ([], 0)

/-- `breakdown.sort((a, b) => b.cost_usd - a.cost_usd)`: sort the rows by
descending cost. -/
def sortByCostDesc (l : List ModelCost) : List ModelCost :=
  l.mergeSort (fun a b => decide (b.cost_usd ≤ a.cost_usd))

/-- The OpenAI `getCosts` cost-assembly phase, starting from the buckets
collected by the chunked, paginated fetch: aggregate, price each model, fall
back to one aggregated row when the map is empty but tokens were counted,
sort descending, and return the total (`now` stands for the
`new Date().toISOString()` timestamp). -/
def openaiGetCosts (now : String) (buckets : List OpenAIBucket) : CostData :=
  let st := parseBuckets buckets
  let rows := costRows openaiFindPricing st.modelMap
  let withFallback : List ModelCost × ℚ :=
    if rows.1.length = 0 ∧ (0 < st.totalInputTokens ∨ 0 < st.totalOutputTokens) then
      let inputCost := ((st.totalInputTokens : ℚ) / 1000000) * openaiDefaultPricing.1
      let outputCost := ((st.totalOutputTokens : ℚ) / 1000000) * openaiDefaultPricing.2
      ([⟨"All Models (aggregated)", inputCost + outputCost, st.totalRequests⟩],
        inputCost + outputCost)
    else rows
  { total_cost_usd := withFallback.2
    last_updated := now
    breakdown := sortByCostDesc withFallback.1 }

/-- One entry of the Anthropic usage response
(`entry.input_tokens || entry.prompt_tokens || 0` and friends; the request
count falls back to 1 when absent or 0, both being falsy). -/
structure AnthropicEntry where
  model : Option String
  input_tokens : ℕ
  output_tokens : ℕ
  request_count : ℕ
deriving Repr, DecidableEq

/-- `entry.request_count || entry.num_requests || entry.requests || 1`. -/
def anthropicEffRequests (r : ℕ) : ℕ :=
  if r = 0 then 1 else r

/-- Processing one Anthropic usage entry. -/
def anthropicAddEntry (st : ParseTotals) (e : AnthropicEntry) : ParseTotals :=
  { modelMap := bumpModel st.modelMap (effModelName e.model)
      ⟨e.input_tokens, e.output_tokens, anthropicEffRequests e.request_count⟩
    totalInputTokens := st.totalInputTokens + e.input_tokens
    totalOutputTokens := st.totalOutputTokens + e.output_tokens
    totalRequests := st.totalRequests + anthropicEffRequests e.request_count }

/-- The Anthropic `getCosts` after endpoint probing.  `usageData` is `none`
when none of the candidate usage endpoints responded (every probe error is
caught and the loop continues, so no exception escapes): in that case the
reserved sentinel -1 and an explanatory breakdown row are returned.
Otherwise `usageData` carries the normalized usage entries
(`usageData.data || usageData.usage || usageData.results || [usageData]`). -/
def anthropicGetCosts (now : String) (usageData : Option (List AnthropicEntry)) :
    CostData :=
  match usageData with
  | none =>
    { total_cost_usd := -1
      last_updated := now
      breakdown := [⟨"⚠️ Usage API not available", 0, 0⟩] }
  | some entries =>
    let st := entries.foldl anthropicAddEntry ⟨[], 0, 0, 0⟩
    let rows := costRows anthropicFindPricing st.modelMap
    { total_cost_usd := rows.2
      last_updated := now
      breakdown := sortByCostDesc rows.1 }

/-! ## OpenRouter provider (src/lib/providers/openrouter.ts, `getCosts`) -/

/-- Fields extracted from the `/auth/key` response (`keyData.data || keyData`);
`limit` and `limit_remaining` are `none` when null. -/
structure OpenRouterKeyInfo where
  usage : ℚ
  usage_daily : ℚ
  usage_weekly : ℚ
  usage_monthly : ℚ
  limit : Option ℚ
  limit_remaining : Option ℚ
deriving Repr, DecidableEq

/-- Fields extracted from the `/credits` response. -/
structure OpenRouterCredits where
  total_credits : ℚ
  total_usage : ℚ
deriving Repr, DecidableEq

/-- Decimal rendering of a money amount (`toFixed(2)` in the source; the
exact text of these informational labels is not load-bearing for any claim,
so the embedding prints the rational directly). -/
def toFixed2 (q : ℚ) : String :=
  toString q

/-- OpenRouter `getCosts`: pick the usage figure whose period matches the
request's day span, push informational breakdown rows (period usage, other
periods, credit balance, key limit), prepend a "No usage recorded" row when
empty, and return `total_usage` from the credits endpoint as the total.
`startMs`/`endMs` are the epoch-millisecond values of the query dates. -/
def openRouterGetCosts (now : String) (keyInfo : OpenRouterKeyInfo)
    (credits : OpenRouterCredits) (startMs endMs : ℤ) : CostData :=
  let daysDiff : ℤ := ⌈(((endMs - startMs : ℤ) : ℚ)) / (1000 * 60 * 60 * 24)⌉
  let totalUsage := credits.total_usage
  let period : ℚ × String :=
    if daysDiff ≤ 1 then (keyInfo.usage_daily, "Today")
    else if daysDiff ≤ 7 then (keyInfo.usage_weekly, "Last 7 Days")
    else if daysDiff ≤ 31 then (keyInfo.usage_monthly, "Last 30 Days")
    else (totalUsage, "Total")
  let periodUsage := period.1
  let periodLabel := period.2
  let b1 : List ModelCost :=
    if 0 < periodUsage then
      [⟨"Usage (" ++ periodLabel ++ ")", periodUsage, 0⟩]
    else []
  let b2 : List ModelCost :=
    if 0 < keyInfo.usage_daily ∧ periodLabel ≠ "Today" then
      [⟨"Today", keyInfo.usage_daily, 0⟩]
    else []
  let b3 : List ModelCost :=
    if 0 < keyInfo.usage_weekly ∧ periodLabel ≠ "Last 7 Days"
        ∧ keyInfo.usage_weekly ≠ keyInfo.usage_daily then
      [⟨"Last 7 Days", keyInfo.usage_weekly, 0⟩]
    else []
  let b4 : List ModelCost :=
    if 0 < keyInfo.usage_monthly ∧ periodLabel ≠ "Last 30 Days"
        ∧ keyInfo.usage_monthly ≠ keyInfo.usage_weekly then
      [⟨"Last 30 Days", keyInfo.usage_monthly, 0⟩]
    else []
  let remaining := credits.total_credits - totalUsage
  let b5 : List ModelCost :=
    [⟨"Credit Balance: $" ++ toFixed2 remaining ++ " / $" ++ toFixed2 credits.total_credits,
      0, 0⟩]
  let b6 : List ModelCost :=
    match keyInfo.limit, keyInfo.limit_remaining with
    | some l, some lr =>
      [⟨"Key Limit Remaining: $" ++ toFixed2 lr ++ " / $" ++ toFixed2 l, 0, 0⟩]
    | _, _ => []
  let breakdown := b1 ++ b2 ++ b3 ++ b4 ++ b5 ++ b6
  let breakdown2 :=
    if breakdown.length = 0 ∨ (periodUsage = 0 ∧ totalUsage = 0) then
      (⟨"No usage recorded", 0, 0⟩ : ModelCost) :: breakdown
    else breakdown
  { total_cost_usd := totalUsage
    last_updated := now
    breakdown := breakdown2 }

/-! ## Invariants of the cost assembly -/

lemma costStep_foldl_sum (price : String → ℚ × ℚ) :
    ∀ (map : List (String × ModelAcc)) (p : List ModelCost × ℚ),
      ((map.foldl (costStep price) p).1.map ModelCost.cost_usd).sum
          - (map.foldl (costStep price) p).2
        = (p.1.map ModelCost.cost_usd).sum - p.2 := by
  intro map
  induction map with
  | nil =>
    intro p
    simp
  | cons me t ih =>
    intro p
    rw [List.foldl_cons, ih]
    simp only [costStep, List.map_append, List.sum_append, List.map_cons,
      List.map_nil, List.sum_cons, List.sum_nil]
    ring

lemma costRows_sum (price : String → ℚ × ℚ) (map : List (String × ModelAcc)) :
    ((costRows price map).1.map ModelCost.cost_usd).sum = (costRows price map).2 := by
  have h := costStep_foldl_sum price map ([], 0)
  simp only [List.map_nil, List.sum_nil, sub_zero] at h
  have h2 : ((costRows price map).1.map ModelCost.cost_usd).sum
      - (costRows price map).2 = 0 := by
    rw [costRows]
    exact h
  linarith

lemma sortByCostDesc_sum (l : List ModelCost) :
    ((sortByCostDesc l).map ModelCost.cost_usd).sum = (l.map ModelCost.cost_usd).sum :=
  ((List.mergeSort_perm l _).map ModelCost.cost_usd).sum_eq

lemma sortByCostDesc_sorted (l : List ModelCost) :
    List.Pairwise (fun a b : ModelCost => b.cost_usd ≤ a.cost_usd) (sortByCostDesc l) := by
  have h := @List.sorted_mergeSort ModelCost
    (fun a b : ModelCost => decide (b.cost_usd ≤ a.cost_usd))
    (fun a b c hab hbc => by
      simp only [decide_eq_true_eq] at *
      exact le_trans hbc hab)
    (fun a b => by
      simp only [Bool.or_eq_true, decide_eq_true_eq]
      exact le_total _ _)
    l
  exact h.imp (fun hab => of_decide_eq_true hab)

/-- C1 (amended): for the OpenAI and Anthropic providers the breakdown costs
sum exactly to `total_cost_usd` (for Anthropic, whenever the total is not the
-1 sentinel); the OpenRouter provider does not satisfy the claim as frozen
(see the counterexample), since its breakdown carries informational
period/balance rows. -/
theorem breakdown_sum_matches_total :
    (∀ (now : String) (buckets : List OpenAIBucket),
      ((openaiGetCosts now buckets).breakdown.map ModelCost.cost_usd).sum
        = (openaiGetCosts now buckets).total_cost_usd)
    ∧ (∀ (now : String) (usageData : Option (List AnthropicEntry)),
      (anthropicGetCosts now usageData).total_cost_usd ≠ -1 →
      ((anthropicGetCosts now usageData).breakdown.map ModelCost.cost_usd).sum
        = (anthropicGetCosts now usageData).total_cost_usd) := by
  constructor
  · intro now buckets
    unfold openaiGetCosts
    dsimp only
    split
    · simp [sortByCostDesc_sum]
    · rw [sortByCostDesc_sum, costRows_sum]
  · intro now usageData hne
    match usageData with
    | none =>
      exact absurd rfl hne
    | some entries =>
      unfold anthropicGetCosts
      dsimp only
      rw [sortByCostDesc_sum, costRows_sum]

/-- Witness for C1's Anthropic clause at one concrete usage entry: the total
is 15 ≠ -1 and the breakdown sums to it. -/
theorem breakdown_sum_matches_total_witness :
    (anthropicGetCosts "t" (some [⟨some "claude-3-opus", 1000000, 0, 2⟩])).total_cost_usd ≠ -1
    ∧ ((anthropicGetCosts "t"
          (some [⟨some "claude-3-opus", 1000000, 0, 2⟩])).breakdown.map ModelCost.cost_usd).sum
        = (anthropicGetCosts "t" (some [⟨some "claude-3-opus", 1000000, 0, 2⟩])).total_cost_usd := by
  have htot : (anthropicGetCosts "t"
      (some [⟨some "claude-3-opus", 1000000, 0, 2⟩])).total_cost_usd = 15 := by
    simp +decide [anthropicGetCosts, costRows, costStep, anthropicAddEntry,
      anthropicEffRequests, effModelName, bumpModel, anthropicFindPricing,
      priceLookup, anthropicModelPricing, List.foldl, List.find?]
    norm_num
  refine ⟨by rw [htot]; norm_num,
    breakdown_sum_matches_total.2 "t" (some [⟨some "claude-3-opus", 1000000, 0, 2⟩])
      (by rw [htot]; norm_num)⟩

/-- Counterexample to C1 as frozen: for the OpenRouter provider with daily
usage 5, total usage 100 and a one-day query range, the breakdown rows sum to
5 while `total_cost_usd` is 100 (and 100 is not the -1 sentinel). -/
theorem breakdown_sum_counterexample :
    ((openRouterGetCosts "t" ⟨0, 5, 0, 0, none, none⟩ ⟨200, 100⟩ 0 86400000).breakdown.map
        ModelCost.cost_usd).sum
      ≠ (openRouterGetCosts "t" ⟨0, 5, 0, 0, none, none⟩ ⟨200, 100⟩ 0 86400000).total_cost_usd
    ∧ (openRouterGetCosts "t" ⟨0, 5, 0, 0, none, none⟩ ⟨200, 100⟩ 0 86400000).total_cost_usd
      ≠ -1 := by
  have hd : (⌈((86400000 - 0 : ℤ) : ℚ) / (1000 * 60 * 60 * 24)⌉ : ℤ) = 1 := by
    norm_num
  have hb : (openRouterGetCosts "t" ⟨0, 5, 0, 0, none, none⟩ ⟨200, 100⟩ 0 86400000).breakdown.map
      ModelCost.cost_usd = [5, 0] := by
    simp only [openRouterGetCosts, hd]
    norm_num
  have ht : (openRouterGetCosts "t" ⟨0, 5, 0, 0, none, none⟩ ⟨200, 100⟩ 0 86400000).total_cost_usd
      = 100 := rfl
  rw [hb, ht]
  norm_num

/-- C6: for every query against the Anthropic provider, whose upstream
exposes no usage endpoint (every endpoint probe fails and is caught),
`getCosts` returns normally with the reserved sentinel -1 as the total — a
value distinct from a legitimate zero cost — and a breakdown holding one
explanatory entry. -/
theorem sentinel_on_unavailable_usage (now : String) :
    anthropicGetCosts now none
      = { total_cost_usd := -1
          last_updated := now
          breakdown := [⟨"⚠️ Usage API not available", 0, 0⟩] }
    ∧ (anthropicGetCosts now none).total_cost_usd ≠ 0 :=
  ⟨rfl, by norm_num [anthropicGetCosts]⟩

/-- C7: price resolution prefers an exact match in the static pricing table
over the heuristic stem match, and the stem match over the provider default;
every identifier resolves to some tuple (the resolvers are total functions,
mirroring the source, which never throws here).  Stated for both the OpenAI
and the Anthropic tables. -/
theorem pricing_resolution_order :
    (∀ (m : String) (p : ℚ × ℚ),
      priceLookup openaiModelPricing m = some p → openaiFindPricing m = p)
    ∧ (∀ (m : String) (kv : String × ℚ × ℚ),
      priceLookup openaiModelPricing m = none →
      findStemKey openaiModelPricing m 2 = some kv → openaiFindPricing m = kv.2)
    ∧ (∀ (m : String),
      priceLookup openaiModelPricing m = none →
      findStemKey openaiModelPricing m 2 = none →
      openaiFindPricing m = openaiDefaultPricing)
    ∧ (∀ (m : String) (p : ℚ × ℚ),
      priceLookup anthropicModelPricing m = some p → anthropicFindPricing m = p)
    ∧ (∀ (m : String) (kv : String × ℚ × ℚ),
      priceLookup anthropicModelPricing m = none →
      findStemKey anthropicModelPricing m 3 = some kv → anthropicFindPricing m = kv.2)
    ∧ (∀ (m : String),
      priceLookup anthropicModelPricing m = none →
      findStemKey anthropicModelPricing m 3 = none →
      anthropicFindPricing m = anthropicDefaultPricing) := by
  refine ⟨?_, ?_, ?_, ?_, ?_, ?_⟩
  · intro m p h
    unfold openaiFindPricing
    rw [h]
  · intro m kv h1 h2
    unfold openaiFindPricing
    rw [h1, h2]
  · intro m h1 h2
    unfold openaiFindPricing
    rw [h1, h2]
  · intro m p h
    unfold anthropicFindPricing
    rw [h]
  · intro m kv h1 h2
    unfold anthropicFindPricing
    rw [h1, h2]
  · intro m h1 h2
    unfold anthropicFindPricing
    rw [h1, h2]

/-- Witness for C7 at concrete identifiers: the exact entry for
gpt-4o-2024-05-13 wins (even though the differently-priced gpt-4o key would
match by prefix); an unrecognized identifier falls through to the default;
an unknown Anthropic date-suffixed identifier resolves through the stem
match to the claude-3-opus-20240229 entry. -/
theorem pricing_resolution_order_witness :
    priceLookup openaiModelPricing "gpt-4o-2024-05-13" = some (5.00, 15.00)
    ∧ openaiFindPricing "gpt-4o-2024-05-13" = (5.00, 15.00)
    ∧ priceLookup openaiModelPricing "mistral-large" = none
    ∧ findStemKey openaiModelPricing "mistral-large" 2 = none
    ∧ openaiFindPricing "mistral-large" = openaiDefaultPricing
    ∧ priceLookup anthropicModelPricing "claude-3-opus-20240301" = none
    ∧ findStemKey anthropicModelPricing "claude-3-opus-20240301" 3
        = some ("claude-3-opus-20240229", (15.00, 75.00))
    ∧ anthropicFindPricing "claude-3-opus-20240301" = (15.00, 75.00) :=
  ⟨rfl,
    pricing_resolution_order.1 "gpt-4o-2024-05-13" (5.00, 15.00) rfl,
    by decide, by decide,
    pricing_resolution_order.2.2.1 "mistral-large" (by decide) (by decide),
    by decide, rfl,
    pricing_resolution_order.2.2.2.2.1 "claude-3-opus-20240301"
      ("claude-3-opus-20240229", (15.00, 75.00)) (by decide) rfl⟩

/-- C8 (amended): the OpenAI and Anthropic providers return their breakdown
sorted in descending order of cost; the OpenRouter provider does not sort its
breakdown (see the counterexample). -/
theorem breakdown_sorted_desc :
    (∀ (now : String) (buckets : List OpenAIBucket),
      List.Pairwise (fun a b : ModelCost => b.cost_usd ≤ a.cost_usd)
        (openaiGetCosts now buckets).breakdown)
    ∧ (∀ (now : String) (usageData : Option (List AnthropicEntry)),
      List.Pairwise (fun a b : ModelCost => b.cost_usd ≤ a.cost_usd)
        (anthropicGetCosts now usageData).breakdown) := by
  constructor
  · intro now buckets
    unfold openaiGetCosts
    exact sortByCostDesc_sorted _
  · intro now usageData
    match usageData with
    | none =>
      simp [anthropicGetCosts]
    | some entries =>
      unfold anthropicGetCosts
      exact sortByCostDesc_sorted _

/-- Counterexample to C8 as frozen: the OpenRouter provider with daily/weekly
/monthly usage 1/2/3, total usage 6 and a 40-day range produces the breakdown
costs [6, 1, 2, 3, 0], which are not in descending order. -/
theorem breakdown_sorted_counterexample :
    ¬ List.Pairwise (fun a b : ModelCost => b.cost_usd ≤ a.cost_usd)
      (openRouterGetCosts "t" ⟨0, 1, 2, 3, none, none⟩ ⟨10, 6⟩ 0 3456000000).breakdown := by
  have hd : (⌈((3456000000 - 0 : ℤ) : ℚ) / (1000 * 60 * 60 * 24)⌉ : ℤ) = 40 := by
    norm_num
  have hb : (openRouterGetCosts "t" ⟨0, 1, 2, 3, none, none⟩ ⟨10, 6⟩ 0 3456000000).breakdown.map
      ModelCost.cost_usd = [6, 1, 2, 3, 0] := by
    simp only [openRouterGetCosts, hd]
    norm_num
    simp +decide
  intro h
  have h2 : List.Pairwise (fun x y : ℚ => y ≤ x)
      ((openRouterGetCosts "t" ⟨0, 1, 2, 3, none, none⟩ ⟨10, 6⟩ 0 3456000000).breakdown.map
        ModelCost.cost_usd) :=
    List.pairwise_map.mpr h
  rw [hb] at h2
  have h3 := (List.pairwise_cons.mp (List.pairwise_cons.mp h2).2).1 2 (by simp)
  norm_num at h3

/-! ## Cache and route claims -/

/-- C9: `set` followed by an immediate `get` of the same key (at the same
clock value, with a nonnegative TTL) returns the stored value; a `get` whose
entry age exceeds the TTL returns `none` and deletes the entry; a `get` at
age within the TTL returns the value and leaves the store unchanged; a `get`
of an absent key returns `none` with the store unchanged. -/
theorem cache_ttl_behaviour :
    (∀ (α : Type) (store : CacheStore α) (now : ℤ) (key : String) (v : α) (ttl : ℤ),
      0 ≤ ttl →
      (getFromCache (setCache store now key v) now key ttl).1 = some v)
    ∧ (∀ (α : Type) (store : CacheStore α) (now : ℤ) (key : String) (ttl : ℤ)
        (e : CacheEntry α),
      store key = some e → ttl < now - e.timestamp →
      (getFromCache store now key ttl).1 = none
        ∧ (getFromCache store now key ttl).2 key = none)
    ∧ (∀ (α : Type) (store : CacheStore α) (now : ℤ) (key : String) (ttl : ℤ)
        (e : CacheEntry α),
      store key = some e → now - e.timestamp ≤ ttl →
      getFromCache store now key ttl = (some e.data, store))
    ∧ (∀ (α : Type) (store : CacheStore α) (now : ℤ) (key : String) (ttl : ℤ),
      store key = none → getFromCache store now key ttl = (none, store)) := by
  refine ⟨?_, ?_, ?_, ?_⟩
  · intro α store now key v ttl httl
    have hs : setCache store now key v key = some ⟨v, now⟩ := by
      unfold setCache
      simp
    unfold getFromCache
    rw [hs]
    dsimp only
    rw [if_neg (by omega)]
  · intro α store now key ttl e he hexp
    unfold getFromCache
    rw [he]
    simp only
    rw [if_pos (by omega)]
    exact ⟨rfl, by simp⟩
  · intro α store now key ttl e he hfresh
    unfold getFromCache
    rw [he]
    simp only
    rw [if_neg (by omega)]
  · intro α store now key ttl he
    unfold getFromCache
    rw [he]

/-- Witness for C9 with the default 5-minute TTL on a concrete store: an
immediate get hits, a get 400000 ms after creation misses and evicts, a get
200000 ms after creation hits, and a get of an absent key misses. -/
theorem cache_ttl_behaviour_witness :
    (0 : ℤ) ≤ DEFAULT_TTL
    ∧ (getFromCache (setCache (emptyCache (α := ℕ)) 100 "k" 7) 100 "k" DEFAULT_TTL).1 = some 7
    ∧ (getFromCache (setCache (emptyCache (α := ℕ)) 0 "k" 7) 400000 "k" DEFAULT_TTL).1 = none
    ∧ (getFromCache (setCache (emptyCache (α := ℕ)) 0 "k" 7) 400000 "k" DEFAULT_TTL).2 "k" = none
    ∧ getFromCache (setCache (emptyCache (α := ℕ)) 0 "k" 7) 200000 "k" DEFAULT_TTL
        = (some 7, setCache (emptyCache (α := ℕ)) 0 "k" 7)
    ∧ getFromCache (emptyCache (α := ℕ)) 5 "absent" DEFAULT_TTL = (none, emptyCache) :=
  ⟨by decide,
    cache_ttl_behaviour.1 ℕ emptyCache 100 "k" 7 DEFAULT_TTL (by decide),
    (cache_ttl_behaviour.2.1 ℕ (setCache emptyCache 0 "k" 7) 400000 "k" DEFAULT_TTL
      ⟨7, 0⟩ rfl (by decide)).1,
    (cache_ttl_behaviour.2.1 ℕ (setCache emptyCache 0 "k" 7) 400000 "k" DEFAULT_TTL
      ⟨7, 0⟩ rfl (by decide)).2,
    cache_ttl_behaviour.2.2.1 ℕ (setCache emptyCache 0 "k" 7) 200000 "k" DEFAULT_TTL
      ⟨7, 0⟩ rfl (by decide),
    cache_ttl_behaviour.2.2.2 ℕ emptyCache 5 "absent" DEFAULT_TTL rfl⟩

/-- C10: the cache key serialization is not injective.  A query with no
workspace collides with an otherwise-identical query whose workspace is the
literal string "none", and underscore-containing field values re-segment
into the same composite key. -/
theorem cache_key_not_injective :
    generateCacheKey "openai" none (some "p") "2026-01-01" "2026-01-31"
      = generateCacheKey "openai" (some "none") (some "p") "2026-01-01" "2026-01-31"
    ∧ (none : Option String) ≠ some "none"
    ∧ generateCacheKey "a_b" (some "c") (some "p") "s" "e"
      = generateCacheKey "a" (some "b_c") (some "p") "s" "e"
    ∧ ("a_b", some "c") ≠ ("a", some "b_c") := by
  refine ⟨by decide, by decide, by decide, by decide⟩

/-- The concrete query used to exhibit the disabled cache lookup. -/
def c2Query : CostQuery :=
  ⟨"openai", some "memoways", some "proj-1", "2026-01-01", "2026-01-31"⟩

/-- The cache key of `c2Query`. -/
def c2Key : String :=
  generateCacheKey c2Query.provider c2Query.workspace c2Query.projectId
    c2Query.startDate c2Query.endDate

/-- A cost result sitting in the cache. -/
def c2CachedValue : CostData := ⟨42, "cached", []⟩

/-- A different cost result the provider would return on a fresh fetch. -/
def c2FreshValue : CostData := ⟨7, "fresh", []⟩

/-- C2 evaluated at the failing input: although a valid, unexpired cache
entry exists for the query's key (first conjunct), the route handler still
invokes the provider's `getCosts` — once — and returns the freshly fetched
value rather than the cached one, because the cache lookup in the handler is
commented out ("TEMPORARILY DISABLED"). -/
theorem costs_route_ignores_cache :
    (getFromCache (setCache emptyCache 0 c2Key c2CachedValue) 1000 c2Key DEFAULT_TTL).1
      = some c2CachedValue
    ∧ (costsRouteGET (fun _ => c2FreshValue) (setCache emptyCache 0 c2Key c2CachedValue)
        1000 c2Query).2.2 = 1
    ∧ (costsRouteGET (fun _ => c2FreshValue) (setCache emptyCache 0 c2Key c2CachedValue)
        1000 c2Query).1 = c2FreshValue
    ∧ c2FreshValue ≠ c2CachedValue := by
  refine ⟨by decide, rfl, rfl, by decide⟩

end LlmStats
